import Mathlib

/-!
Verification development for the `oneliner` command risk-assessment engine
(`internal/executor/riskAssessment.go`).

The Go module is a pure pattern-matching pipeline: a command string is trimmed,
gated for control characters, scanned by a fixed family of detectors (each a
set of RE2 regular expressions with fixed finding texts), deduplicated, checked
against a configuration-supplied blacklist of binary names, and finally mapped
to a risk level by keyword tiers over the finding texts.

This file shallowly embeds that pipeline:
* characters/strings are Lean `Char`/`String` (`String.data : List Char`);
* every Go regular expression is translated node by node into an executable
  `Regex` AST with RE2 semantics for the constructs actually used
  (literals, classes, `.` = any char except newline, `\b` ASCII word
  boundary, `$` end of text, alternation, concatenation, star/plus/opt);
  `Regex.matchString` decides "some substring matches", which is exactly
  what Go's `MatchString` returns;
* each detector and `AssessCommandRisk` is translated from the source,
  keeping finding texts, ordering and short-circuits.

`unicode.IsPrint` is modelled on its ASCII fragment (plus "all code points
above U+00A0 print", an approximation of the Unicode tables; exact on ASCII,
where every claim and witness in this file lives).
-/

/-- Go `unicode.IsSpace` (Latin-1 range): `\t \n \v \f \r ' '` plus U+0085 and
U+00A0.  Used by `strings.TrimSpace`. -/
def goIsSpace (c : Char) : Bool :=
  c = ' ' || c = '\t' || c = '\n' || c = '\x0b' || c = '\x0c' || c = '\r' ||
    c.val = 0x85 || c.val = 0xA0

/-- RE2 `\s` character class: `[\t\n\f\r ]` (note: no `\v`). -/
def re2Space (c : Char) : Bool :=
  c = ' ' || c = '\t' || c = '\n' || c = '\x0c' || c = '\r'

/-- Model of Go `unicode.IsPrint`: printable ASCII (0x20–0x7E), and every code
point above U+00A0 (ASCII-exact approximation of the Unicode tables). -/
def goIsPrint (c : Char) : Bool :=
  (0x20 ≤ c.val && c.val ≤ 0x7E) || 0xA1 ≤ c.val

/-- The per-rune test of the control-character gate in `AssessCommandRisk`:
`r == '\x00' || (!unicode.IsPrint(r) && !unicode.IsSpace(r))`. -/
def badCtlChar (c : Char) : Bool :=
  c = '\x00' || (!(goIsPrint c) && !(goIsSpace c))

/-- `strings.TrimSpace` on a character list: drop leading and trailing
`goIsSpace` characters. -/
def trimChars (l : List Char) : List Char :=
  ((l.dropWhile goIsSpace).reverse.dropWhile goIsSpace).reverse

/-- `strings.TrimSpace`. -/
def goTrimSpace (s : String) : String :=
  String.mk (trimChars s.data)

/-- ASCII lowercasing of one character, the ASCII fragment of Go
`strings.ToLower` (exact on ASCII input). -/
def goToLowerChar (c : Char) : Char :=
  if 'A' ≤ c && c ≤ 'Z' then Char.ofNat (c.toNat + 32) else c

/-- ASCII fragment of Go `strings.ToLower`. -/
def strToLowerAscii (s : String) : String :=
  String.mk (s.data.map goToLowerChar)

mutual

/-- Replace each maximal run of RE2 `\s` characters by a single space:
`regexp.MustCompile(\s+).ReplaceAllString(_, " ")`. -/
def collapseWs : List Char → List Char
  | [] => []
  | c :: cs => if re2Space c then ' ' :: skipWs cs else c :: collapseWs cs

/-- Helper of `collapseWs`: inside a whitespace run, skip to its end. -/
def skipWs : List Char → List Char
  | [] => []
  | c :: cs => if re2Space c then skipWs cs else c :: collapseWs cs

end

/-- `normalizeCommand` from riskAssessment.go: trim, collapse whitespace runs
to single spaces, lowercase. -/
def normalizeCommand (cmd : String) : String :=
  String.mk ((collapseWs (trimChars cmd.data)).map goToLowerChar)

/-- RE2 ASCII word character, the class `\b` is defined against. -/
def wordChar (c : Char) : Bool :=
  ('a' ≤ c && c ≤ 'z') || ('A' ≤ c && c ≤ 'Z') || ('0' ≤ c && c ≤ '9') || c = '_'

/-- Is the (optional) character a word character?  `none` stands for the edge
of the text. -/
def optWordChar : Option Char → Bool
  | some c => wordChar c
  | none => false

/-- RE2 `\b`: the previous and next characters disagree on word-ness. -/
def atBoundary (prev : Option Char) (rest : List Char) : Bool :=
  optWordChar prev != optWordChar rest.head?

/-- Regular-expression AST covering the constructs used in riskAssessment.go.
`dot` is RE2 `.` (any character except `\n`), `bnd` is `\b`, `eol` is `$`
(end of text; no multiline flag is set in the source). -/
inductive Regex where
  | eps : Regex
  | dot : Regex
  | chr : Char → Regex
  | cls : (Char → Bool) → Regex
  | bnd : Regex
  | eol : Regex
  | alt : Regex → Regex → Regex
  | cat : Regex → Regex → Regex
  | star : Regex → Regex

/-- A match position: the character just before the position (for `\b`) and
the remaining suffix.  Within one search start, a position is determined by
the suffix length. -/
abbrev MatchPos := Option Char × List Char

/-- Keep the first occurrence of each suffix length (positions within one
search start are determined by suffix length, so this loses nothing). -/
def dedupPos : List MatchPos → List Nat → List MatchPos
  | [], _ => []
  | p :: ps, seen =>
    if seen.contains p.2.length then dedupPos ps seen
    else p :: dedupPos ps (p.2.length :: seen)

/-- Closure of `star`: repeatedly apply one body match (`step`) to the
frontier, collecting any position not yet seen; stops on a fixpoint or when
`fuel` runs out (a fuel of `suffix length + 1` always reaches the fixpoint
because each round must add a position with a new suffix length). -/
def starClosure (step : Option Char → List Char → List MatchPos) :
    Nat → List MatchPos → List MatchPos → List MatchPos
  | 0, acc, _ => acc
  | Nat.succ fuel, acc, frontier =>
    let next := dedupPos (frontier.flatMap (fun pr => step pr.1 pr.2)) []
    let fresh := next.filter (fun q => !(acc.any (fun s => s.2.length == q.2.length)))
    if fresh.isEmpty then acc else starClosure step fuel (acc ++ fresh) fresh

/-- All positions reachable by matching `re` starting at the position
`(prev, rest)`.  Nonemptiness of the result is "`re` matches a prefix of
`rest` here", the building block of RE2 `MatchString`. -/
def runRegex : Regex → Option Char → List Char → List MatchPos
  | .eps, p, r => [(p, r)]
  | .dot, _, r =>
    match r with
    | [] => []
    | x :: xs => if x = '\n' then [] else [(some x, xs)]
  | .chr c, _, r =>
    match r with
    | [] => []
    | x :: xs => if x = c then [(some x, xs)] else []
  | .cls q, _, r =>
    match r with
    | [] => []
    | x :: xs => if q x then [(some x, xs)] else []
  | .bnd, p, r => if atBoundary p r then [(p, r)] else []
  | .eol, p, r => if r.isEmpty then [(p, r)] else []
  | .alt a b, p, r => runRegex a p r ++ runRegex b p r
  | .cat a b, p, r =>
    (dedupPos (runRegex a p r) []).flatMap (fun pr => runRegex b pr.1 pr.2)
  | .star a, p, r => starClosure (fun q s => runRegex a q s) (r.length + 1) [(p, r)] [(p, r)]

/-- Does `re` match some prefix of `rest` at this position? -/
def matchHere (re : Regex) (p : Option Char) (r : List Char) : Bool :=
  !(runRegex re p r).isEmpty

/-- Try every start position (including the end-of-text position). -/
def searchList (re : Regex) (p : Option Char) : List Char → Bool
  | [] => matchHere re p []
  | x :: xs => matchHere re p (x :: xs) || searchList re (some x) xs

/-- Go `Regexp.MatchString`: does some substring of `s` match `re`? -/
def Regex.matchString (re : Regex) (s : String) : Bool :=
  searchList re none s.data

/-- Concatenation of a list of regexes. -/
def rseq (l : List Regex) : Regex :=
  l.foldr Regex.cat .eps

/-- Literal string as a regex (each character matched literally; this is also
the meaning of `regexp.QuoteMeta` applied to arbitrary text). -/
def rstr (s : String) : Regex :=
  rseq (s.data.map Regex.chr)

/-- `r+`. -/
def rplus (r : Regex) : Regex := .cat r (.star r)

/-- `r?`. -/
def ropt (r : Regex) : Regex := .alt r .eps

/-- `[a-z]`. -/
def lowerAlpha (c : Char) : Bool := 'a' ≤ c && c ≤ 'z'

/-- `[0-9a-fA-F]`. -/
def hexDigit (c : Char) : Bool :=
  ('0' ≤ c && c ≤ '9') || ('a' ≤ c && c ≤ 'f') || ('A' ≤ c && c ≤ 'F')

-- A few sanity checks of the matcher against RE2 behaviour.
example : (Regex.cat .bnd (rstr "rm")).matchString "sudo rm" = true := by decide
example : (Regex.cat .bnd (rstr "rm")).matchString "storm" = false := by decide
example : (rseq [.star .dot, .chr 'a']).matchString "xxab" = true := by decide
example : (rseq [rplus (.cls re2Space), .chr '/', .star (.cls re2Space), .eol]).matchString
    "rm -rf /" = true := by decide
example : (rseq [rplus (.cls re2Space), .chr '/', .star (.cls re2Space), .eol]).matchString
    "rm -rf /x" = false := by decide

/-- `\bWORD\b` for a literal word. -/
def wordRegex (s : String) : Regex :=
  rseq [.bnd, rstr s, .bnd]

/-! ### The compiled pattern catalogue of riskAssessment.go, regex by regex -/

/-- Go: `\\x[0-9a-fA-F]{2}`. -/
def hexEncodeRegex : Regex :=
  rseq [.chr '\\', .chr 'x', .cls hexDigit, .cls hexDigit]

/-- Go: `base64|b64decode|atob`. -/
def base64Regex : Regex :=
  .alt (rstr "base64") (.alt (rstr "b64decode") (rstr "atob"))

/-- Go: `\beval\b|\bexec\b`. -/
def evalRegex : Regex :=
  .alt (wordRegex "eval") (wordRegex "exec")

/-- Go: `\brev\b`. -/
def revRegex : Regex := wordRegex "rev"

/-- Go: `\bfind\b.*-delete`. -/
def findDeleteRegex : Regex :=
  rseq [.bnd, rstr "find", .bnd, .star .dot, rstr "-delete"]

/-- Go: `\bshred\b`. -/
def shredRegex : Regex := wordRegex "shred"

/-- Go: `\btruncate\b.*-s\s*0`. -/
def truncateRegex : Regex :=
  rseq [.bnd, rstr "truncate", .bnd, .star .dot, rstr "-s", .star (.cls re2Space), .chr '0']

/-- Go: `:\(\)\s*\{\s*:\|:&\s*\};?:` (the fork-bomb pattern; `\x7b`/`\x7d`
are the brace characters). -/
def forkBombRegex : Regex :=
  rseq [.chr ':', .chr '(', .chr ')', .star (.cls re2Space), .chr '\x7b',
    .star (.cls re2Space), .chr ':', .chr '|', .chr ':', .chr '&',
    .star (.cls re2Space), .chr '\x7d', ropt (.chr ';'), .chr ':']

/-- Go: `while\s+true|while\s*\[\s*1\s*\]|for\s*\(\(\s*;;\s*\)\)`. -/
def infiniteLoopRegex : Regex :=
  .alt (rseq [rstr "while", rplus (.cls re2Space), rstr "true"])
    (.alt (rseq [rstr "while", .star (.cls re2Space), .chr '[', .star (.cls re2Space),
        .chr '1', .star (.cls re2Space), .chr ']'])
      (rseq [rstr "for", .star (.cls re2Space), .chr '(', .chr '(', .star (.cls re2Space),
        .chr ';', .chr ';', .star (.cls re2Space), .chr ')', .chr ')']))

/-- Go: `\b(sleep|wait|read)\b`. -/
def sleepWaitReadRegex : Regex :=
  rseq [.bnd, .alt (rstr "sleep") (.alt (rstr "wait") (rstr "read")), .bnd]

/-- Go: `\bdd\b.*bs=.*count=.*[MGT]`. -/
def ddLargeRegex : Regex :=
  rseq [.bnd, rstr "dd", .bnd, .star .dot, rstr "bs=", .star .dot, rstr "count=",
    .star .dot, .cls (fun c => c = 'M' || c = 'G' || c = 'T')]

/-- Go: `\btar\b.*\|.*\bnc\b`. -/
def tarNcRegex : Regex :=
  rseq [.bnd, rstr "tar", .bnd, .star .dot, .chr '|', .star .dot, .bnd, rstr "nc", .bnd]

/-- Go: `\bcurl\b.*--data.*@`. -/
def curlUploadRegex : Regex :=
  rseq [.bnd, rstr "curl", .bnd, .star .dot, rstr "--data", .star .dot, .chr '@']

/-- Go: `\bwget\b.*--post-file`. -/
def wgetPostRegex : Regex :=
  rseq [.bnd, rstr "wget", .bnd, .star .dot, rstr "--post-file"]

/-- Go: `\bscp\b.*@.*:`. -/
def scpRegex : Regex :=
  rseq [.bnd, rstr "scp", .bnd, .star .dot, .chr '@', .star .dot, .chr ':']

/-- Go: `\brsync\b.*@.*:`. -/
def rsyncRegex : Regex :=
  rseq [.bnd, rstr "rsync", .bnd, .star .dot, .chr '@', .star .dot, .chr ':']

/-- Go: `\b(chmod|chown)\b.*/etc`. -/
def chmodEtcRegex : Regex :=
  rseq [.bnd, .alt (rstr "chmod") (rstr "chown"), .bnd, .star .dot, rstr "/etc"]

/-- Go: `\bchmod\b.*\b0+\b`. -/
def chmodZeroRegex : Regex :=
  rseq [.bnd, rstr "chmod", .bnd, .star .dot, .bnd, rplus (.chr '0'), .bnd]

/-- Go: `\bsudo\s+`. -/
def sudoRegex : Regex :=
  rseq [.bnd, rstr "sudo", rplus (.cls re2Space)]

/-- Go: `\bsu\s+`. -/
def suRegex : Regex :=
  rseq [.bnd, rstr "su", rplus (.cls re2Space)]

/-- Go: `\bsu\s+-`. -/
def suDashRegex : Regex :=
  rseq [.bnd, rstr "su", rplus (.cls re2Space), .chr '-']

/-- Go: `\bdoas\b`. -/
def doasRegex : Regex := wordRegex "doas"

/-- Go: `\bpkexec\b`. -/
def pkexecRegex : Regex := wordRegex "pkexec"

/-- Go `rmRegexes`, in order:
`\brm\s+.*-[a-z]*r[a-z]*.*-[a-z]*f`, `\brm\s+.*--recursive.*--force`,
`\brm\s+.*--force.*--recursive`, `/bin/rm\s+.*-[a-z]*[rf]`,
`\$\((which\s+rm)\)`. -/
def rmRegexes : List Regex :=
  [ rseq [.bnd, rstr "rm", rplus (.cls re2Space), .star .dot, .chr '-',
      .star (.cls lowerAlpha), .chr 'r', .star (.cls lowerAlpha), .star .dot,
      .chr '-', .star (.cls lowerAlpha), .chr 'f'],
    rseq [.bnd, rstr "rm", rplus (.cls re2Space), .star .dot, rstr "--recursive",
      .star .dot, rstr "--force"],
    rseq [.bnd, rstr "rm", rplus (.cls re2Space), .star .dot, rstr "--force",
      .star .dot, rstr "--recursive"],
    rseq [rstr "/bin/rm", rplus (.cls re2Space), .star .dot, .chr '-',
      .star (.cls lowerAlpha), .cls (fun c => c = 'r' || c = 'f')],
    rseq [.chr '$', .chr '(', rstr "which", rplus (.cls re2Space), rstr "rm", .chr ')'] ]

/-- Go `dangerousPathRegexes`, in order: `\s+/\s*$`, `\s+/\*`, `\s+/home\b`,
`\s+/etc\b`, `\s+/usr\b`, `\s+/var\b`, `\s+/boot\b`, `\s+~\s*($|/)`,
`\s+\$home\b`, `[a-z]:\\\?\*`. -/
def dangerousPathRegexes : List Regex :=
  [ rseq [rplus (.cls re2Space), .chr '/', .star (.cls re2Space), .eol],
    rseq [rplus (.cls re2Space), .chr '/', .chr '*'],
    rseq [rplus (.cls re2Space), rstr "/home", .bnd],
    rseq [rplus (.cls re2Space), rstr "/etc", .bnd],
    rseq [rplus (.cls re2Space), rstr "/usr", .bnd],
    rseq [rplus (.cls re2Space), rstr "/var", .bnd],
    rseq [rplus (.cls re2Space), rstr "/boot", .bnd],
    rseq [rplus (.cls re2Space), .chr '~', .star (.cls re2Space), .alt .eol (.chr '/')],
    rseq [rplus (.cls re2Space), .chr '$', rstr "home", .bnd],
    rseq [.cls lowerAlpha, .chr ':', .chr '\\', .chr '?', .chr '*'] ]

/-- Go `diskOpRegexes` paired with the finding text `detectDiskOperations`
derives for each one: index 0 and 1 get their dedicated descriptions, all
later entries fall into the `default` arm,
"disk/partition operation detected". -/
def diskOpPatterns : List (Regex × String) :=
  [ (rseq [.bnd, rstr "dd", .bnd, .star .dot, rstr "of", .star (.cls re2Space),
      .chr '=', .star (.cls re2Space), rstr "/dev/"],
     "dd writing to raw device (can overwrite entire disk)"),
    (rseq [.chr '>', .star (.cls re2Space), rstr "/dev/",
      .alt (rseq [rstr "sd", .cls lowerAlpha]) (.alt (rstr "nvme") (rseq [rstr "hd", .cls lowerAlpha]))],
     "output redirection to block device"),
    (wordRegex "mkfs", "disk/partition operation detected"),
    (wordRegex "fdisk", "disk/partition operation detected"),
    (wordRegex "parted", "disk/partition operation detected"),
    (wordRegex "gdisk", "disk/partition operation detected"),
    (wordRegex "cfdisk", "disk/partition operation detected"),
    (wordRegex "mkswap", "disk/partition operation detected"),
    (wordRegex "sgdisk", "disk/partition operation detected") ]

/-- Go `networkRegexes` paired with the finding text `detectNetworkOperations`
derives per index. -/
def networkPatterns : List (Regex × String) :=
  [ (rseq [.alt (rstr "curl") (rstr "wget"), .star .dot, .chr '|', .star .dot,
      .bnd, rstr "sh", .bnd], "piping download directly to shell (dangerous)"),
    (rseq [.alt (rstr "curl") (rstr "wget"), .star .dot, .chr '|', .star .dot,
      .bnd, rstr "bash", .bnd], "piping download to bash"),
    (rseq [.alt (rstr "curl") (rstr "wget"), .star .dot, .chr '|', .star .dot,
      .bnd, rstr "python", .bnd], "piping download to python"),
    (rseq [.alt (rstr "curl") (rstr "wget"), .star .dot, .chr '>',
      .star (.cls re2Space), rstr "/tmp/", .star .dot, rstr "&&", .star .dot,
      .bnd, rstr "sh", .bnd], "download and execute pattern"),
    (rseq [.bnd, rstr "nc", .bnd, .star .dot, rstr "-l", .star .dot, rstr "-e"],
     "netcat with command execution"),
    (rseq [.bnd, rstr "ncat", .bnd, .star .dot, rstr "--exec"],
     "ncat with command execution") ]

/-- The exfiltration patterns of `detectDataExfiltration`, paired with their
finding texts. -/
def exfilPatterns : List (Regex × String) :=
  [ (tarNcRegex, "archiving and sending over network"),
    (curlUploadRegex, "uploading file via curl"),
    (wgetPostRegex, "uploading file via wget"),
    (scpRegex, "secure copy to remote host"),
    (rsyncRegex, "rsync to remote host") ]

/-- The `writeOps` of `detectSystemFileModification`:
`>`, `>>`, `\btee\b`, `\bsed\b.*-i`. -/
def writeOps : List Regex :=
  [rstr ">", rstr ">>", wordRegex "tee",
   rseq [.bnd, rstr "sed", .bnd, .star .dot, rstr "-i"]]

/-- The `criticalFiles` list of `detectSystemFileModification`. -/
def criticalFiles : List String :=
  ["/etc/passwd", "/etc/shadow", "/etc/sudoers", "/etc/fstab", "/etc/hosts",
   "/boot/", "/etc/systemd", "/etc/init"]

/-- Go builds `op + ".*" + regexp.QuoteMeta(file)` and matches it. -/
def sysPatternFwd (op : Regex) (file : String) : Regex :=
  .cat op (.cat (.star .dot) (rstr file))

/-- Go builds `regexp.QuoteMeta(file) + ".*" + op` and matches it. -/
def sysPatternRev (op : Regex) (file : String) : Regex :=
  .cat (rstr file) (.cat (.star .dot) op)

/-- The blacklist pattern: `\b` + `regexp.QuoteMeta(strings.ToLower(bin))` +
`\b` — a case-insensitive word-boundary match of the literal binary name. -/
def blacklistRegex (bin : String) : Regex :=
  .cat .bnd (.cat (rstr (strToLowerAscii bin)) .bnd)

/-! ### Risk levels, findings and detectors -/

/-- Go `RiskLevel`: `RiskNone < RiskLow < RiskMedium < RiskHigh < RiskCritical`. -/
inductive RiskLevel where
  | RiskNone : RiskLevel
  | RiskLow : RiskLevel
  | RiskMedium : RiskLevel
  | RiskHigh : RiskLevel
  | RiskCritical : RiskLevel
deriving DecidableEq, Repr

open RiskLevel

/-- Numeric value of a level, as in the Go `iota` enumeration. -/
def RiskLevel.toNat : RiskLevel → Nat
  | RiskNone => 0
  | RiskLow => 1
  | RiskMedium => 2
  | RiskHigh => 3
  | RiskCritical => 4

instance : LE RiskLevel := ⟨fun a b => a.toNat ≤ b.toNat⟩

instance : LT RiskLevel := ⟨fun a b => a.toNat < b.toNat⟩

instance (a b : RiskLevel) : Decidable (a ≤ b) := Nat.decLe a.toNat b.toNat

instance (a b : RiskLevel) : Decidable (a < b) := Nat.decLt a.toNat b.toNat

/-- Go `RiskAssessment`: a level plus the ordered finding texts. -/
structure RiskAssessment where
  level : RiskLevel
  reasons : List String
deriving DecidableEq, Repr

/-- `if b { issues = append(issues, s) }` as a list fragment. -/
def condFinding (b : Bool) (s : String) : List String :=
  if b then [s] else []

/-- Number of occurrences of `c` in `s` (Go `strings.Count` for a one-rune
substring). -/
def countChar (s : String) (c : Char) : Nat :=
  s.data.count c

/-- `detectObfuscation` (operates on the raw, un-normalized command). -/
def detectObfuscation (cmd : String) : List String :=
  condFinding (hexEncodeRegex.matchString cmd)
    "hex-encoded characters detected (possible obfuscation)" ++
  condFinding (base64Regex.matchString cmd)
    "base64 encoding/decoding detected (possible obfuscation)" ++
  condFinding (evalRegex.matchString cmd)
    "eval/exec detected (dynamic code execution)" ++
  condFinding (revRegex.matchString cmd)
    "reverse command detected (possible obfuscation)" ++
  condFinding (decide (countChar cmd '\\' > 5) ||
      decide (countChar cmd '"' + countChar cmd '\'' > 6))
    "excessive escaping/quoting detected"

/-- `detectPrivilegeEscalation`: skipped entirely when `intentionalSudo`;
otherwise the five word-boundary patterns over the normalized command, in
source order. -/
def detectPrivilegeEscalation (cmd : String) (intentionalSudo : Bool) : List String :=
  if intentionalSudo then []
  else
    let normalized := normalizeCommand cmd
    condFinding (sudoRegex.matchString normalized) "sudo privilege escalation" ++
    condFinding (suRegex.matchString normalized) "su privilege escalation" ++
    condFinding (suDashRegex.matchString normalized) "su with privilege escalation" ++
    condFinding (doasRegex.matchString normalized) "doas privilege escalation" ++
    condFinding (pkexecRegex.matchString normalized) "pkexec privilege escalation"

/-- `detectDestructiveFileOps`: the first matching `rm` pattern yields one
finding — elevated when any dangerous-path pattern also matches the
normalized text (v2 checks the path patterns independently), generic
otherwise — followed by the `find -delete`, `shred` and `truncate` checks. -/
def detectDestructiveFileOps (cmd : String) : List String :=
  let normalized := normalizeCommand cmd
  (if rmRegexes.any (fun r => r.matchString normalized) then
    if dangerousPathRegexes.any (fun r => r.matchString normalized) then
      ["destructive rm command targeting critical path"]
    else
      ["destructive rm -rf detected (verify target path)"]
  else []) ++
  condFinding (findDeleteRegex.matchString normalized)
    "find -delete can remove many files (potentially destructive)" ++
  condFinding (shredRegex.matchString normalized)
    "shred detected (secure file deletion, unrecoverable)" ++
  condFinding (truncateRegex.matchString normalized)
    "truncate to zero detected (data loss)"

/-- `detectDiskOperations`: each matching pattern appends its description
(the `switch` on pattern identity resolves to the fixed texts recorded in
`diskOpPatterns`). -/
def detectDiskOperations (cmd : String) : List String :=
  let normalized := normalizeCommand cmd
  diskOpPatterns.filterMap
    (fun pr => if pr.1.matchString normalized then some pr.2 else none)

/-- `detectSystemFileModification`: per critical file, one finding if any
write operator matches before or after the file path (the inner loop breaks
on the first matching operator, so this is an `any`); then the two chmod
checks. -/
def detectSystemFileModification (cmd : String) : List String :=
  let normalized := normalizeCommand cmd
  criticalFiles.filterMap (fun file =>
    if writeOps.any (fun op =>
        (sysPatternFwd op file).matchString normalized ||
        (sysPatternRev op file).matchString normalized) then
      some ("modification to critical system file: " ++ file)
    else none) ++
  condFinding (chmodEtcRegex.matchString normalized)
    "permission change on /etc directory" ++
  condFinding (chmodZeroRegex.matchString normalized)
    "chmod removing all permissions (files will be inaccessible)"

/-- `detectNetworkOperations`: each matching pattern appends its description. -/
def detectNetworkOperations (cmd : String) : List String :=
  let normalized := normalizeCommand cmd
  networkPatterns.filterMap
    (fun pr => if pr.1.matchString normalized then some pr.2 else none)

/-- `detectResourceExhaustion` (operates on the raw, un-normalized command):
fork bomb, infinite loop without throttling primitive, large `dd`. -/
def detectResourceExhaustion (cmd : String) : List String :=
  condFinding (forkBombRegex.matchString cmd)
    "fork bomb detected (will crash system)" ++
  condFinding (infiniteLoopRegex.matchString cmd &&
      !(sleepWaitReadRegex.matchString cmd))
    "infinite loop without delay (potential resource exhaustion)" ++
  condFinding (ddLargeRegex.matchString cmd)
    "large file creation with dd"

/-- `detectDataExfiltration`: each matching pattern appends its description. -/
def detectDataExfiltration (cmd : String) : List String :=
  let normalized := normalizeCommand cmd
  exfilPatterns.filterMap
    (fun pr => if pr.1.matchString normalized then some pr.2 else none)

/-- The eight detector outputs concatenated in the exact order
`AssessCommandRisk` runs them (obfuscation, privilege escalation,
destructive file ops, disk ops, system files, network, resource
exhaustion, exfiltration). -/
def collectFindings (trimmed : String) (usedSudoFlag : Bool) : List String :=
  detectObfuscation trimmed ++
  detectPrivilegeEscalation trimmed usedSudoFlag ++
  detectDestructiveFileOps trimmed ++
  detectDiskOperations trimmed ++
  detectSystemFileModification trimmed ++
  detectNetworkOperations trimmed ++
  detectResourceExhaustion trimmed ++
  detectDataExfiltration trimmed

/-- The `seen` map deduplication: keep the first occurrence of each finding. -/
def dedupSeen (seen : List String) : List String → List String
  | [] => []
  | x :: xs =>
    if seen.contains x then dedupSeen seen xs
    else x :: dedupSeen (x :: seen) xs

/-- Flattened, deduplicated findings — the `assessment.Reasons` value just
before the blacklist check. -/
def baseReasons (trimmed : String) (usedSudoFlag : Bool) : List String :=
  dedupSeen [] (collectFindings trimmed usedSudoFlag)

/-- Tier-1 keywords (any match forces `Critical` and stops classification). -/
def criticalKeywords : List String :=
  ["fork bomb", "disk", "partition", "/etc/passwd", "/etc/shadow", "crash system"]

/-- Tier-2 keywords (raise to `High`). -/
def highKeywords : List String :=
  ["destructive", "rm -rf", "overwrite", "erase", "unrecoverable"]

/-- Tier-3 keywords (raise to `Medium`). -/
def mediumKeywords : List String :=
  ["sudo", "privilege", "critical"]

/-- Is `needle` a contiguous substring of `hay` (Go `strings.Contains`)? -/
def listHasInfix : List Char → List Char → Bool
  | [], needle => needle.isEmpty
  | x :: t, needle => needle.isPrefixOf (x :: t) || listHasInfix t needle

/-- `strings.Contains(strings.ToLower(reason), kw)` for some `kw` in `kws`. -/
def containsKeyword (reason : String) (kws : List String) : Bool :=
  kws.any (fun kw => listHasInfix (strToLowerAscii reason).data kw.data)

/-- The tier-3 (medium) bump of the aggregation loop, applied to the level
already updated by tier 2: `if contains && level < RiskMedium { Medium }`. -/
def mediumBump (lvl1 : RiskLevel) (reason : String) : RiskLevel :=
  if containsKeyword reason mediumKeywords && decide (lvl1 < RiskMedium)
  then RiskMedium else lvl1

/-- The tier-2 and tier-3 updates one loop iteration applies to the running
level for a non-critical reason. -/
def bumpReason (lvl : RiskLevel) (reason : String) : RiskLevel :=
  mediumBump
    (if containsKeyword reason highKeywords && decide (lvl < RiskHigh)
      then RiskHigh else lvl) reason

/-- The severity-aggregation loop of `AssessCommandRisk`: a critical keyword
returns `RiskCritical` at once (the `goto done` jumps past the final
`RiskNone → RiskLow` default); high/medium keywords monotonically bump the
running level; with the reasons exhausted, a still-`RiskNone` level becomes
`RiskLow`. -/
def scanReasons (lvl : RiskLevel) : List String → RiskLevel
  | [] => if lvl = RiskNone then RiskLow else lvl
  | reason :: rest =>
    if containsKeyword reason criticalKeywords then RiskCritical
    else scanReasons (bumpReason lvl reason) rest

/-- `AssessCommandRisk` (v2 signature `(command, usedSudoFlag)`); the
`blacklistedBinaries` argument stands for `cfg.BlacklistedBinaries` as
obtained from the successful `config.Load("")` call inside the function —
the spec's `extraForbiddenBinaries` parameter.  `List.find?` returns the
first binary whose word-boundary pattern matches the normalized command,
exactly like the Go `for` loop that appends one finding, sets
`RiskCritical` and returns. -/
def AssessCommandRisk (command : String) (usedSudoFlag : Bool)
    (blacklistedBinaries : List String) : RiskAssessment :=
  if (goTrimSpace command).data = [] then
    { level := RiskNone, reasons := ["empty command"] }
  else if (goTrimSpace command).data.any badCtlChar then
    { level := RiskHigh, reasons := ["contains invalid control characters"] }
  else
    match blacklistedBinaries.find?
        (fun bin => (blacklistRegex bin).matchString
          (normalizeCommand (goTrimSpace command))) with
    | some bin =>
      { level := RiskCritical,
        reasons := baseReasons (goTrimSpace command) usedSudoFlag ++
          ["executes blacklisted binary: " ++ bin] }
    | none =>
      if baseReasons (goTrimSpace command) usedSudoFlag = [] then
        { level := RiskNone,
          reasons := baseReasons (goTrimSpace command) usedSudoFlag }
      else
        { level := scanReasons RiskNone (baseReasons (goTrimSpace command) usedSudoFlag),
          reasons := baseReasons (goTrimSpace command) usedSudoFlag }

/-! ### Order facts for `RiskLevel` -/

theorem RiskLevel.le_trans {a b c : RiskLevel} (h1 : a ≤ b) (h2 : b ≤ c) : a ≤ c :=
  Nat.le_trans h1 h2

theorem RiskLevel.le_of_lt {a b : RiskLevel} (h : a < b) : a ≤ b :=
  Nat.le_of_lt h

theorem RiskLevel.le_rfl {a : RiskLevel} : a ≤ a :=
  Nat.le_refl a.toNat

theorem RiskLevel.le_critical (a : RiskLevel) : a ≤ RiskCritical := by
  cases a <;> decide

theorem RiskLevel.high_le_of_not_lt {a : RiskLevel} (h : ¬ a < RiskHigh) :
    RiskHigh ≤ a :=
  Nat.le_of_not_lt h

theorem RiskLevel.not_lt_medium_of_high_le {a : RiskLevel} (h : RiskHigh ≤ a) :
    ¬ a < RiskMedium :=
  fun hlt => absurd (Nat.lt_of_le_of_lt h hlt) (by decide)

theorem RiskLevel.ne_none_of_low_le {a : RiskLevel} (h : RiskLow ≤ a) :
    a ≠ RiskNone := by
  cases a <;> first | decide | exact absurd h (by decide)

theorem RiskLevel.low_le_of_ne_none {a : RiskLevel} (h : a ≠ RiskNone) :
    RiskLow ≤ a := by
  cases a <;> first | decide | exact absurd rfl h

/-! ### Deduplication and finding-list membership -/

theorem dedupSeen_cons (seen : List String) (y : String) (ys : List String) :
    dedupSeen seen (y :: ys) =
      if seen.contains y then dedupSeen seen ys
      else y :: dedupSeen (y :: seen) ys := rfl

theorem mem_dedupSeen {x : String} :
    ∀ {l seen : List String}, x ∈ dedupSeen seen l ↔ (x ∈ l ∧ x ∉ seen) := by
  intro l
  induction l with
  | nil => intro seen; simp [dedupSeen]
  | cons y ys ih =>
    intro seen
    by_cases hy : seen.contains y = true
    · rw [dedupSeen_cons, if_pos hy, ih]
      constructor
      · rintro ⟨h1, h2⟩; exact ⟨List.mem_cons_of_mem _ h1, h2⟩
      · rintro ⟨h1, h2⟩
        rcases List.mem_cons.mp h1 with rfl | h1
        · exact absurd (List.elem_iff.mp hy) h2
        · exact ⟨h1, h2⟩
    · rw [dedupSeen_cons, if_neg hy]
      constructor
      · intro h
        rcases List.mem_cons.mp h with rfl | h
        · exact ⟨List.mem_cons_self _ _, fun hx => hy (List.elem_iff.mpr hx)⟩
        · obtain ⟨h1, h2⟩ := ih.mp h
          exact ⟨List.mem_cons_of_mem _ h1,
            fun hx => h2 (List.mem_cons_of_mem _ hx)⟩
      · rintro ⟨h1, h2⟩
        rcases List.mem_cons.mp h1 with rfl | h1
        · exact List.mem_cons_self _ _
        · by_cases hxy : x = y
          · subst hxy; exact List.mem_cons_self _ _
          · exact List.mem_cons_of_mem _ (ih.mpr ⟨h1, by
              intro hx
              rcases List.mem_cons.mp hx with h | h
              · exact hxy h
              · exact h2 h⟩)

theorem mem_baseReasons {x : String} {trimmed : String} {flag : Bool} :
    x ∈ baseReasons trimmed flag ↔ x ∈ collectFindings trimmed flag := by
  rw [baseReasons, mem_dedupSeen]
  simp

theorem mem_condFinding {f s : String} {b : Bool} (h : f ∈ condFinding b s) :
    f = s ∧ b = true := by
  by_cases hb : b = true
  · exact ⟨by simpa [condFinding, hb] using h, hb⟩
  · simp [condFinding, hb] at h

theorem condFinding_mem_self {s : String} {b : Bool} (h : b = true) :
    s ∈ condFinding b s := by
  simp [condFinding, h]

/-! ### Properties of the severity-aggregation loop -/

theorem le_mediumBump (lvl1 : RiskLevel) (reason : String) :
    lvl1 ≤ mediumBump lvl1 reason := by
  rw [mediumBump]
  split
  · next h =>
    exact RiskLevel.le_of_lt (of_decide_eq_true (Bool.and_elim_right h))
  · exact RiskLevel.le_rfl

theorem le_bumpReason (lvl : RiskLevel) (reason : String) :
    lvl ≤ bumpReason lvl reason := by
  rw [bumpReason]
  refine RiskLevel.le_trans ?_ (le_mediumBump _ reason)
  split
  · next h =>
    exact RiskLevel.le_of_lt (of_decide_eq_true (Bool.and_elim_right h))
  · exact RiskLevel.le_rfl

theorem high_le_bumpReason {reason : String} (lvl : RiskLevel)
    (h : containsKeyword reason highKeywords = true) :
    RiskHigh ≤ bumpReason lvl reason := by
  rw [bumpReason]
  refine RiskLevel.le_trans ?_ (le_mediumBump _ reason)
  rw [h, Bool.true_and]
  split
  · exact RiskLevel.le_rfl
  · next hd =>
    exact RiskLevel.high_le_of_not_lt (fun hlt => hd (decide_eq_true hlt))

theorem le_scanReasons : ∀ (rs : List String) (lvl : RiskLevel),
    lvl ≤ scanReasons lvl rs := by
  intro rs
  induction rs with
  | nil =>
    intro lvl
    rw [scanReasons]
    split
    · next h => subst h; decide
    · exact RiskLevel.le_rfl
  | cons r rest ih =>
    intro lvl
    rw [scanReasons]
    split
    · exact RiskLevel.le_critical lvl
    · exact RiskLevel.le_trans (le_bumpReason lvl r) (ih _)

theorem low_le_scanReasons : ∀ (rs : List String) (lvl : RiskLevel),
    RiskLow ≤ scanReasons lvl rs := by
  intro rs
  induction rs with
  | nil =>
    intro lvl
    rw [scanReasons]
    split
    · decide
    · next h => exact RiskLevel.low_le_of_ne_none h
  | cons r rest ih =>
    intro lvl
    rw [scanReasons]
    split
    · decide
    · exact ih _

theorem scanReasons_critical {r : String}
    (hcrit : containsKeyword r criticalKeywords = true) :
    ∀ (rs : List String) (lvl : RiskLevel), r ∈ rs →
    scanReasons lvl rs = RiskCritical := by
  intro rs
  induction rs with
  | nil => intro lvl h; exact absurd h (List.not_mem_nil r)
  | cons y ys ih =>
    intro lvl h
    rw [scanReasons]
    by_cases hy : containsKeyword y criticalKeywords = true
    · rw [if_pos hy]
    · rw [if_neg hy]
      rcases List.mem_cons.mp h with rfl | hmem
      · exact absurd hcrit hy
      · exact ih _ hmem

theorem high_le_scanReasons {r : String}
    (hhigh : containsKeyword r highKeywords = true) :
    ∀ (rs : List String) (lvl : RiskLevel), r ∈ rs →
    RiskHigh ≤ scanReasons lvl rs := by
  intro rs
  induction rs with
  | nil => intro lvl h; exact absurd h (List.not_mem_nil r)
  | cons y ys ih =>
    intro lvl h
    rw [scanReasons]
    by_cases hy : containsKeyword y criticalKeywords = true
    · rw [if_pos hy]; decide
    · rw [if_neg hy]
      rcases List.mem_cons.mp h with rfl | hmem
      · exact RiskLevel.le_trans (high_le_bumpReason lvl hhigh)
          (le_scanReasons ys _)
      · exact ih _ hmem

/-! ### Enumeration of the possible finding texts of each detector -/

theorem detectObfuscation_mem {c f : String} (h : f ∈ detectObfuscation c) :
    f ∈ ["hex-encoded characters detected (possible obfuscation)",
      "base64 encoding/decoding detected (possible obfuscation)",
      "eval/exec detected (dynamic code execution)",
      "reverse command detected (possible obfuscation)",
      "excessive escaping/quoting detected"] := by
  simp only [detectObfuscation, List.mem_append] at h
  rcases h with (((h | h) | h) | h) | h <;>
    · have := (mem_condFinding h).1
      subst this
      decide

theorem detectPrivilegeEscalation_mem {c f : String} {b : Bool}
    (h : f ∈ detectPrivilegeEscalation c b) :
    f ∈ ["sudo privilege escalation", "su privilege escalation",
      "su with privilege escalation", "doas privilege escalation",
      "pkexec privilege escalation"] := by
  rw [detectPrivilegeEscalation] at h
  by_cases hb : b = true
  · rw [if_pos hb] at h
    exact absurd h (List.not_mem_nil f)
  · rw [if_neg hb] at h
    simp only [List.mem_append] at h
    rcases h with (((h | h) | h) | h) | h <;>
      · have := (mem_condFinding h).1
        subst this
        decide

theorem detectDestructiveFileOps_mem {c f : String}
    (h : f ∈ detectDestructiveFileOps c) :
    f ∈ ["destructive rm command targeting critical path",
      "destructive rm -rf detected (verify target path)",
      "find -delete can remove many files (potentially destructive)",
      "shred detected (secure file deletion, unrecoverable)",
      "truncate to zero detected (data loss)"] := by
  simp only [detectDestructiveFileOps, List.mem_append] at h
  rcases h with ((h | h) | h) | h
  · split at h
    · split at h
      · rw [List.mem_singleton] at h; subst h; decide
      · rw [List.mem_singleton] at h; subst h; decide
    · exact absurd h (List.not_mem_nil f)
  all_goals
    have := (mem_condFinding h).1
    subst this
    decide

theorem detectDiskOperations_mem {c f : String} (h : f ∈ detectDiskOperations c) :
    f ∈ ["dd writing to raw device (can overwrite entire disk)",
      "output redirection to block device",
      "disk/partition operation detected"] := by
  simp only [detectDiskOperations, List.mem_filterMap] at h
  obtain ⟨pr, hpr, hif⟩ := h
  have hf : f = pr.2 := by
    by_cases hm : pr.1.matchString (normalizeCommand c) = true
    · rw [if_pos hm] at hif
      exact (Option.some.inj hif).symm
    · rw [if_neg hm] at hif
      exact absurd hif (by simp)
  subst hf
  fin_cases hpr <;> decide

theorem detectSystemFileModification_mem {c f : String}
    (h : f ∈ detectSystemFileModification c) :
    f ∈ ["modification to critical system file: /etc/passwd",
      "modification to critical system file: /etc/shadow",
      "modification to critical system file: /etc/sudoers",
      "modification to critical system file: /etc/fstab",
      "modification to critical system file: /etc/hosts",
      "modification to critical system file: /boot/",
      "modification to critical system file: /etc/systemd",
      "modification to critical system file: /etc/init",
      "permission change on /etc directory",
      "chmod removing all permissions (files will be inaccessible)"] := by
  simp only [detectSystemFileModification, List.mem_append] at h
  rcases h with (h | h) | h
  · simp only [List.mem_filterMap] at h
    obtain ⟨file, hfile, hif⟩ := h
    have hf : f = "modification to critical system file: " ++ file := by
      split at hif
      · exact (Option.some.inj hif).symm
      · exact absurd hif (by simp)
    subst hf
    fin_cases hfile <;> decide
  all_goals
    have := (mem_condFinding h).1
    subst this
    decide

theorem detectNetworkOperations_mem {c f : String}
    (h : f ∈ detectNetworkOperations c) :
    f ∈ ["piping download directly to shell (dangerous)",
      "piping download to bash", "piping download to python",
      "download and execute pattern", "netcat with command execution",
      "ncat with command execution"] := by
  simp only [detectNetworkOperations, List.mem_filterMap] at h
  obtain ⟨pr, hpr, hif⟩ := h
  have hf : f = pr.2 := by
    split at hif
    · exact (Option.some.inj hif).symm
    · exact absurd hif (by simp)
  subst hf
  fin_cases hpr <;> decide

theorem detectResourceExhaustion_mem {c f : String}
    (h : f ∈ detectResourceExhaustion c) :
    f ∈ ["fork bomb detected (will crash system)",
      "infinite loop without delay (potential resource exhaustion)",
      "large file creation with dd"] := by
  simp only [detectResourceExhaustion, List.mem_append] at h
  rcases h with (h | h) | h <;>
    · have := (mem_condFinding h).1
      subst this
      decide

theorem detectDataExfiltration_mem {c f : String}
    (h : f ∈ detectDataExfiltration c) :
    f ∈ ["archiving and sending over network", "uploading file via curl",
      "uploading file via wget", "secure copy to remote host",
      "rsync to remote host"] := by
  simp only [detectDataExfiltration, List.mem_filterMap] at h
  obtain ⟨pr, hpr, hif⟩ := h
  have hf : f = pr.2 := by
    split at hif
    · exact (Option.some.inj hif).symm
    · exact absurd hif (by simp)
  subst hf
  fin_cases hpr <;> decide

/-! ### Branch equations for `AssessCommandRisk` -/

theorem bool_eq_false_of_not_true {b : Bool} (h : ¬ b = true) : b = false := by
  cases b
  · rfl
  · exact absurd rfl h

theorem assess_eq_of_empty {cmd : String} {flag : Bool} {bl : List String}
    (h : (goTrimSpace cmd).data = []) :
    AssessCommandRisk cmd flag bl =
      { level := RiskNone, reasons := ["empty command"] } := by
  unfold AssessCommandRisk
  rw [if_pos h]

theorem assess_eq_of_ctl {cmd : String} {flag : Bool} {bl : List String}
    (h1 : (goTrimSpace cmd).data ≠ [])
    (h2 : (goTrimSpace cmd).data.any badCtlChar = true) :
    AssessCommandRisk cmd flag bl =
      { level := RiskHigh, reasons := ["contains invalid control characters"] } := by
  unfold AssessCommandRisk
  rw [if_neg h1, if_pos h2]

theorem assess_eq_of_blacklist {cmd : String} {flag : Bool} {bl : List String}
    {bin : String}
    (h1 : (goTrimSpace cmd).data ≠ [])
    (h2 : (goTrimSpace cmd).data.any badCtlChar = false)
    (h3 : bl.find? (fun b => (blacklistRegex b).matchString
      (normalizeCommand (goTrimSpace cmd))) = some bin) :
    AssessCommandRisk cmd flag bl =
      { level := RiskCritical,
        reasons := baseReasons (goTrimSpace cmd) flag ++
          ["executes blacklisted binary: " ++ bin] } := by
  unfold AssessCommandRisk
  rw [if_neg h1, if_neg (by simp [h2]), h3]

theorem assess_eq_of_quiet {cmd : String} {flag : Bool} {bl : List String}
    (h1 : (goTrimSpace cmd).data ≠ [])
    (h2 : (goTrimSpace cmd).data.any badCtlChar = false)
    (h3 : bl.find? (fun b => (blacklistRegex b).matchString
      (normalizeCommand (goTrimSpace cmd))) = none)
    (h4 : baseReasons (goTrimSpace cmd) flag = []) :
    AssessCommandRisk cmd flag bl = { level := RiskNone, reasons := [] } := by
  unfold AssessCommandRisk
  rw [if_neg h1, if_neg (by simp [h2]), h3, if_pos h4, h4]

theorem assess_eq_of_scan {cmd : String} {flag : Bool} {bl : List String}
    (h1 : (goTrimSpace cmd).data ≠ [])
    (h2 : (goTrimSpace cmd).data.any badCtlChar = false)
    (h3 : bl.find? (fun b => (blacklistRegex b).matchString
      (normalizeCommand (goTrimSpace cmd))) = none)
    (h4 : baseReasons (goTrimSpace cmd) flag ≠ []) :
    AssessCommandRisk cmd flag bl =
      { level := scanReasons RiskNone (baseReasons (goTrimSpace cmd) flag),
        reasons := baseReasons (goTrimSpace cmd) flag } := by
  unfold AssessCommandRisk
  rw [if_neg h1, if_neg (by simp [h2]), h3, if_neg h4]

theorem assess_blacklist_level {cmd : String} {flag : Bool} {bl : List String}
    {bin : String}
    (h1 : (goTrimSpace cmd).data ≠ [])
    (h2 : (goTrimSpace cmd).data.any badCtlChar = false)
    (h3 : bl.find? (fun b => (blacklistRegex b).matchString
      (normalizeCommand (goTrimSpace cmd))) = some bin) :
    (AssessCommandRisk cmd flag bl).level = RiskCritical := by
  rw [assess_eq_of_blacklist h1 h2 h3]

theorem assess_blacklist_reasons {cmd : String} {flag : Bool} {bl : List String}
    {bin : String}
    (h1 : (goTrimSpace cmd).data ≠ [])
    (h2 : (goTrimSpace cmd).data.any badCtlChar = false)
    (h3 : bl.find? (fun b => (blacklistRegex b).matchString
      (normalizeCommand (goTrimSpace cmd))) = some bin) :
    (AssessCommandRisk cmd flag bl).reasons =
      baseReasons (goTrimSpace cmd) flag ++
        ["executes blacklisted binary: " ++ bin] := by
  rw [assess_eq_of_blacklist h1 h2 h3]

theorem assess_scan_level {cmd : String} {flag : Bool} {bl : List String}
    (h1 : (goTrimSpace cmd).data ≠ [])
    (h2 : (goTrimSpace cmd).data.any badCtlChar = false)
    (h3 : bl.find? (fun b => (blacklistRegex b).matchString
      (normalizeCommand (goTrimSpace cmd))) = none)
    (h4 : baseReasons (goTrimSpace cmd) flag ≠ []) :
    (AssessCommandRisk cmd flag bl).level =
      scanReasons RiskNone (baseReasons (goTrimSpace cmd) flag) := by
  rw [assess_eq_of_scan h1 h2 h3 h4]

theorem assess_scan_reasons {cmd : String} {flag : Bool} {bl : List String}
    (h1 : (goTrimSpace cmd).data ≠ [])
    (h2 : (goTrimSpace cmd).data.any badCtlChar = false)
    (h3 : bl.find? (fun b => (blacklistRegex b).matchString
      (normalizeCommand (goTrimSpace cmd))) = none)
    (h4 : baseReasons (goTrimSpace cmd) flag ≠ []) :
    (AssessCommandRisk cmd flag bl).reasons =
      baseReasons (goTrimSpace cmd) flag := by
  rw [assess_eq_of_scan h1 h2 h3 h4]

/-! ### Claim theorems -/

/-- C9: for every input whose trimmed form is empty, `AssessCommandRisk`
returns level `RiskNone` with reasons exactly `["empty command"]`, and no
detector runs (the function returns from its first branch, before any
detector or the blacklist check is reached). -/
theorem empty_command_returns_none (cmd : String) (flag : Bool) (bl : List String)
    (h : (goTrimSpace cmd).data = []) :
    AssessCommandRisk cmd flag bl =
      { level := RiskNone, reasons := ["empty command"] } :=
  assess_eq_of_empty h

/-- Witness for C9 at the spec scenario `assess("", false, [])`. -/
theorem empty_command_returns_none_witness :
    AssessCommandRisk "" false [] =
      { level := RiskNone, reasons := ["empty command"] } :=
  empty_command_returns_none "" false [] (by decide)

/-- C7: for every trimmed non-empty input containing a NUL byte or a code
point that is neither printable nor whitespace, `AssessCommandRisk` returns
immediately with level `RiskHigh` and the single reason
"contains invalid control characters"; the equation shows the result is the
fast-path record, produced before any detector or the blacklist check. -/
theorem control_char_fast_path (cmd : String) (flag : Bool) (bl : List String)
    (h1 : (goTrimSpace cmd).data ≠ [])
    (h2 : (goTrimSpace cmd).data.any badCtlChar = true) :
    AssessCommandRisk cmd flag bl =
      { level := RiskHigh, reasons := ["contains invalid control characters"] } :=
  assess_eq_of_ctl h1 h2

/-- Witness for C7 at the concrete input `"ls\x01"` (a 0x01 control byte). -/
theorem control_char_fast_path_witness :
    AssessCommandRisk "ls\x01" false [] =
      { level := RiskHigh, reasons := ["contains invalid control characters"] } :=
  control_char_fast_path "ls\x01" false [] (by decide) (by decide)

/-- C5: the `reasons = [] ↔ level = RiskNone` invariant.  On the empty-input
fast path the function returns `RiskNone` with the one reason
"empty command" (the documented exception); for every other input the
equivalence holds (the control-character path returns `RiskHigh` with one
reason, the blacklist override returns `RiskCritical` with at least one
reason, and the aggregated level is at least `RiskLow` exactly when some
finding exists). -/
theorem reasons_empty_iff_level_none (cmd : String) (flag : Bool) (bl : List String) :
    ((goTrimSpace cmd).data = [] →
      (AssessCommandRisk cmd flag bl).level = RiskNone ∧
      (AssessCommandRisk cmd flag bl).reasons = ["empty command"]) ∧
    ((goTrimSpace cmd).data ≠ [] →
      (((AssessCommandRisk cmd flag bl).reasons = [] ↔
        (AssessCommandRisk cmd flag bl).level = RiskNone) ∧
       ((AssessCommandRisk cmd flag bl).reasons ≠ [] →
        RiskLow ≤ (AssessCommandRisk cmd flag bl).level))) := by
  constructor
  · intro h
    rw [assess_eq_of_empty h]
    exact ⟨rfl, rfl⟩
  · intro h
    by_cases hctl : (goTrimSpace cmd).data.any badCtlChar = true
    · rw [assess_eq_of_ctl h hctl]
      refine ⟨⟨fun hx => absurd hx (by decide), fun hx => absurd hx (by decide)⟩,
        fun _ => by decide⟩
    · have hctl2 := bool_eq_false_of_not_true hctl
      cases hfind : bl.find? (fun b => (blacklistRegex b).matchString
          (normalizeCommand (goTrimSpace cmd))) with
      | some bin =>
        rw [assess_blacklist_level h hctl2 hfind,
          assess_blacklist_reasons h hctl2 hfind]
        refine ⟨⟨fun hx => absurd hx (by simp), fun hx => absurd hx (by decide)⟩,
          fun _ => by decide⟩
      | none =>
        by_cases hbase : baseReasons (goTrimSpace cmd) flag = []
        · rw [assess_eq_of_quiet h hctl2 hfind hbase]
          exact ⟨⟨fun _ => rfl, fun _ => rfl⟩, fun hx => absurd rfl hx⟩
        · rw [assess_scan_level h hctl2 hfind hbase,
            assess_scan_reasons h hctl2 hfind hbase]
          have hlow := low_le_scanReasons (baseReasons (goTrimSpace cmd) flag) RiskNone
          exact ⟨⟨fun hx => absurd hx hbase,
            fun hx => absurd hx (RiskLevel.ne_none_of_low_le hlow)⟩, fun _ => hlow⟩

/-- Witness for C5 at the spec scenario `assess("ls -la", false, [])`
(non-empty input, no findings: reasons empty and level `RiskNone`). -/
theorem reasons_empty_iff_level_none_witness :
    (goTrimSpace "ls -la").data ≠ [] ∧
    ((AssessCommandRisk "ls -la" false []).reasons = [] ↔
      (AssessCommandRisk "ls -la" false []).level = RiskNone) :=
  ⟨by decide, ((reasons_empty_iff_level_none "ls -la" false []).2 (by decide)).1⟩

/-- No string shorter than the 29-character prefix
"executes blacklisted binary: " can be a blacklist finding. -/
theorem ne_blacklist_append (s : String) (hs : s.length < 29) (bin : String) :
    s ≠ "executes blacklisted binary: " ++ bin := by
  intro h
  have hlen := congrArg String.length h
  rw [String.length_append] at hlen
  have h29 : ("executes blacklisted binary: " : String).length = 29 := rfl
  rw [h29] at hlen
  omega

/-- With the privilege-escalation detector disabled, no finding of any other
detector carries one of the five privilege-escalation texts. -/
theorem priv_not_in_baseReasons {trimmed : String} {f : String}
    (hf : f ∈ ["sudo privilege escalation", "su privilege escalation",
      "su with privilege escalation", "doas privilege escalation",
      "pkexec privilege escalation"])
    (hmem : f ∈ baseReasons trimmed true) : False := by
  have hcol := mem_baseReasons.mp hmem
  simp only [collectFindings, List.mem_append] at hcol
  rcases hcol with ((((((ho | hp) | hd) | hk) | hs) | hn) | hr) | he
  · have hc := detectObfuscation_mem ho
    fin_cases hc <;> exact absurd hf (by decide)
  · have hpriv : detectPrivilegeEscalation trimmed true = [] := rfl
    rw [hpriv] at hp
    exact absurd hp (List.not_mem_nil f)
  · have hc := detectDestructiveFileOps_mem hd
    fin_cases hc <;> exact absurd hf (by decide)
  · have hc := detectDiskOperations_mem hk
    fin_cases hc <;> exact absurd hf (by decide)
  · have hc := detectSystemFileModification_mem hs
    fin_cases hc <;> exact absurd hf (by decide)
  · have hc := detectNetworkOperations_mem hn
    fin_cases hc <;> exact absurd hf (by decide)
  · have hc := detectResourceExhaustion_mem hr
    fin_cases hc <;> exact absurd hf (by decide)
  · have hc := detectDataExfiltration_mem he
    fin_cases hc <;> exact absurd hf (by decide)

/-- C8: with `usedSudoFlag = true` the privilege-escalation detector is
skipped entirely, so none of its five finding texts can appear among the
returned reasons, whatever the command and the blacklist. -/
theorem privilege_findings_absent_when_intended (cmd : String) (bl : List String)
    (f : String)
    (hf : f ∈ ["sudo privilege escalation", "su privilege escalation",
      "su with privilege escalation", "doas privilege escalation",
      "pkexec privilege escalation"]) :
    f ∉ (AssessCommandRisk cmd true bl).reasons := by
  intro hmem
  by_cases h1 : (goTrimSpace cmd).data = []
  · rw [assess_eq_of_empty h1] at hmem
    have hfe : f = "empty command" := List.mem_singleton.mp hmem
    subst hfe
    exact absurd hf (by decide)
  · by_cases h2 : (goTrimSpace cmd).data.any badCtlChar = true
    · rw [assess_eq_of_ctl h1 h2] at hmem
      have hfe : f = "contains invalid control characters" :=
        List.mem_singleton.mp hmem
      subst hfe
      exact absurd hf (by decide)
    · have h2f := bool_eq_false_of_not_true h2
      cases hfind : bl.find? (fun b => (blacklistRegex b).matchString
          (normalizeCommand (goTrimSpace cmd))) with
      | some bin =>
        rw [assess_blacklist_reasons h1 h2f hfind] at hmem
        rcases List.mem_append.mp hmem with hbase | hlast
        · exact priv_not_in_baseReasons hf hbase
        · have hfe : f = "executes blacklisted binary: " ++ bin :=
            List.mem_singleton.mp hlast
          fin_cases hf <;> exact absurd hfe (ne_blacklist_append _ (by decide) bin)
      | none =>
        by_cases hbase : baseReasons (goTrimSpace cmd) true = []
        · rw [assess_eq_of_quiet h1 h2f hfind hbase] at hmem
          exact absurd hmem (List.not_mem_nil f)
        · rw [assess_scan_reasons h1 h2f hfind hbase] at hmem
          exact priv_not_in_baseReasons hf hmem

/-- Witness for C8: `assess("sudo ls", true, [])` has no
"sudo privilege escalation" finding. -/
theorem privilege_findings_absent_when_intended_witness :
    "sudo privilege escalation" ∉ (AssessCommandRisk "sudo ls" true []).reasons :=
  privilege_findings_absent_when_intended "sudo ls" [] _ (by decide)

/-! ### Membership introduction into the collected findings -/

theorem resource_mem_collectFindings {trimmed f : String} {flag : Bool}
    (h : f ∈ detectResourceExhaustion trimmed) :
    f ∈ collectFindings trimmed flag := by
  simp only [collectFindings, List.mem_append]
  tauto

theorem destructive_mem_collectFindings {trimmed f : String} {flag : Bool}
    (h : f ∈ detectDestructiveFileOps trimmed) :
    f ∈ collectFindings trimmed flag := by
  simp only [collectFindings, List.mem_append]
  tauto

theorem disk_mem_collectFindings {trimmed f : String} {flag : Bool}
    (h : f ∈ detectDiskOperations trimmed) :
    f ∈ collectFindings trimmed flag := by
  simp only [collectFindings, List.mem_append]
  tauto

/-- C6: any command whose trimmed text (control-character free) matches the
fork-bomb pattern gets the finding "fork bomb detected (will crash system)"
among its reasons, and the overall level is `RiskCritical` ("fork bomb" is a
tier-1 keyword; the blacklist override, if it fires instead, is also
`RiskCritical`). -/
theorem fork_bomb_forces_critical (cmd : String) (flag : Bool) (bl : List String)
    (hctl : (goTrimSpace cmd).data.any badCtlChar = false)
    (hfb : forkBombRegex.matchString (goTrimSpace cmd) = true) :
    "fork bomb detected (will crash system)" ∈
      (AssessCommandRisk cmd flag bl).reasons ∧
    (AssessCommandRisk cmd flag bl).level = RiskCritical := by
  by_cases h1 : (goTrimSpace cmd).data = []
  · exfalso
    have he : goTrimSpace cmd = "" := String.ext (by rw [h1])
    rw [he] at hfb
    exact absurd hfb (by decide)
  · have hfm : "fork bomb detected (will crash system)" ∈
        detectResourceExhaustion (goTrimSpace cmd) := by
      simp only [detectResourceExhaustion, List.mem_append]
      exact Or.inl (Or.inl (condFinding_mem_self hfb))
    have hbase : "fork bomb detected (will crash system)" ∈
        baseReasons (goTrimSpace cmd) flag :=
      mem_baseReasons.mpr (resource_mem_collectFindings hfm)
    have hnonempty : baseReasons (goTrimSpace cmd) flag ≠ [] :=
      List.ne_nil_of_mem hbase
    cases hfind : bl.find? (fun b => (blacklistRegex b).matchString
        (normalizeCommand (goTrimSpace cmd))) with
    | some bin =>
      refine ⟨?_, assess_blacklist_level h1 hctl hfind⟩
      rw [assess_blacklist_reasons h1 hctl hfind]
      exact List.mem_append.mpr (Or.inl hbase)
    | none =>
      refine ⟨?_, ?_⟩
      · rw [assess_scan_reasons h1 hctl hfind hnonempty]
        exact hbase
      · rw [assess_scan_level h1 hctl hfind hnonempty]
        exact scanReasons_critical (by decide) _ _ hbase

/-- Witness for C6 at the spec scenario
`assess(":(){ :|:& };:", false, [])` (braces written `\x7b`/`\x7d`). -/
theorem fork_bomb_forces_critical_witness :
    "fork bomb detected (will crash system)" ∈
      (AssessCommandRisk ":()\x7b :|:& \x7d;:" false []).reasons ∧
    (AssessCommandRisk ":()\x7b :|:& \x7d;:" false []).level = RiskCritical :=
  fork_bomb_forces_critical ":()\x7b :|:& \x7d;:" false [] (by decide) (by decide)

/-- C10: a non-empty, control-character-free command whose normalized text
contains `shred` as a word — even as a mere argument — and matches no
blacklisted binary gets the finding
"shred detected (secure file deletion, unrecoverable)" and a level of at
least `RiskHigh` (its text carries the tier-2 keyword "unrecoverable"). -/
theorem shred_finding_at_least_high (cmd : String) (flag : Bool) (bl : List String)
    (h1 : (goTrimSpace cmd).data ≠ [])
    (hctl : (goTrimSpace cmd).data.any badCtlChar = false)
    (hshred : shredRegex.matchString (normalizeCommand (goTrimSpace cmd)) = true)
    (hbl : ∀ b ∈ bl, (blacklistRegex b).matchString
      (normalizeCommand (goTrimSpace cmd)) = false) :
    "shred detected (secure file deletion, unrecoverable)" ∈
      (AssessCommandRisk cmd flag bl).reasons ∧
    RiskHigh ≤ (AssessCommandRisk cmd flag bl).level := by
  have hfind : bl.find? (fun b => (blacklistRegex b).matchString
      (normalizeCommand (goTrimSpace cmd))) = none :=
    List.find?_eq_none.mpr (fun x hx => by simp [hbl x hx])
  have hfm : "shred detected (secure file deletion, unrecoverable)" ∈
      detectDestructiveFileOps (goTrimSpace cmd) := by
    simp only [detectDestructiveFileOps, List.mem_append]
    exact Or.inl (Or.inr (condFinding_mem_self hshred))
  have hbase : "shred detected (secure file deletion, unrecoverable)" ∈
      baseReasons (goTrimSpace cmd) flag :=
    mem_baseReasons.mpr (destructive_mem_collectFindings hfm)
  have hnonempty : baseReasons (goTrimSpace cmd) flag ≠ [] :=
    List.ne_nil_of_mem hbase
  refine ⟨?_, ?_⟩
  · rw [assess_scan_reasons h1 hctl hfind hnonempty]
    exact hbase
  · rw [assess_scan_level h1 hctl hfind hnonempty]
    exact high_le_scanReasons (by decide) _ _ hbase

/-- Witness for C10 at the concrete input `"echo shred"`, where `shred` is a
mere argument: the finding appears and the level is `RiskHigh`-or-above. -/
theorem shred_finding_at_least_high_witness :
    "shred detected (secure file deletion, unrecoverable)" ∈
      (AssessCommandRisk "echo shred" false []).reasons ∧
    RiskHigh ≤ (AssessCommandRisk "echo shred" false []).level :=
  shred_finding_at_least_high "echo shred" false [] (by decide) (by decide)
    (by decide) (by simp)

/-- C2 counterexample: on `"> /dev/sda"` the disk-operations detector emits
the finding "output redirection to block device", yet the overall level is
only `RiskLow` — the finding text contains no tier keyword at all, so the
claim "every disk-operations finding forces Critical" is false. -/
theorem disk_redirect_low_counterexample :
    detectDiskOperations (goTrimSpace "> /dev/sda") ≠ [] ∧
    (AssessCommandRisk "> /dev/sda" false []).level = RiskLow ∧
    ¬ (AssessCommandRisk "> /dev/sda" false []).level = RiskCritical := by
  refine ⟨by decide, by decide, by decide⟩

/-- C2 (amended): every disk-operations finding other than
"output redirection to block device" — i.e. the `dd`-to-device finding and
the generic "disk/partition operation detected" finding — contains the
tier-1 keyword "disk" and therefore forces the overall level to
`RiskCritical` on any control-character-free command (a blacklist override,
if it fires first, also yields `RiskCritical`). -/
theorem disk_operation_forces_critical (cmd : String) (flag : Bool)
    (bl : List String) (f : String)
    (hctl : (goTrimSpace cmd).data.any badCtlChar = false)
    (hf : f ∈ detectDiskOperations (goTrimSpace cmd))
    (hne : f ≠ "output redirection to block device") :
    (AssessCommandRisk cmd flag bl).level = RiskCritical := by
  by_cases h1 : (goTrimSpace cmd).data = []
  · exfalso
    have he : goTrimSpace cmd = "" := String.ext (by rw [h1])
    rw [he] at hf
    have hempty : detectDiskOperations "" = [] := by decide
    rw [hempty] at hf
    exact absurd hf (List.not_mem_nil f)
  · have hcrit : containsKeyword f criticalKeywords = true := by
      have hc := detectDiskOperations_mem hf
      fin_cases hc
      · decide
      · exact absurd rfl hne
      · decide
    have hbase : f ∈ baseReasons (goTrimSpace cmd) flag :=
      mem_baseReasons.mpr (disk_mem_collectFindings hf)
    have hnonempty := List.ne_nil_of_mem hbase
    cases hfind : bl.find? (fun b => (blacklistRegex b).matchString
        (normalizeCommand (goTrimSpace cmd))) with
    | some bin => exact assess_blacklist_level h1 hctl hfind
    | none =>
      rw [assess_scan_level h1 hctl hfind hnonempty]
      exact scanReasons_critical hcrit _ _ hbase

/-- Witness for the amended C2 at `"mkfs /dev/sda1"` (a filesystem-creation
command): the generic disk/partition finding forces `RiskCritical`. -/
theorem disk_operation_forces_critical_witness :
    (AssessCommandRisk "mkfs /dev/sda1" false []).level = RiskCritical :=
  disk_operation_forces_critical "mkfs /dev/sda1" false []
    "disk/partition operation detected" (by decide) (by decide) (by decide)

/-- C3: whenever some configured forbidden binary matches the normalized
command (case-insensitive word-boundary match), `AssessCommandRisk` returns
`RiskCritical` with exactly one blacklist finding — naming the first
matching binary — appended after all previously collected findings, and the
keyword-tier aggregation (`scanReasons`) never runs: the result is the
short-circuit record itself. -/
theorem blacklist_override_shortcircuit (cmd : String) (flag : Bool)
    (bl : List String)
    (h1 : (goTrimSpace cmd).data ≠ [])
    (h2 : (goTrimSpace cmd).data.any badCtlChar = false)
    (h3 : ∃ b ∈ bl, (blacklistRegex b).matchString
      (normalizeCommand (goTrimSpace cmd)) = true) :
    ∃ bin, bl.find? (fun b => (blacklistRegex b).matchString
        (normalizeCommand (goTrimSpace cmd))) = some bin ∧
      AssessCommandRisk cmd flag bl =
        { level := RiskCritical,
          reasons := baseReasons (goTrimSpace cmd) flag ++
            ["executes blacklisted binary: " ++ bin] } := by
  have hsome : (bl.find? (fun b => (blacklistRegex b).matchString
      (normalizeCommand (goTrimSpace cmd)))).isSome :=
    List.find?_isSome.mpr h3
  obtain ⟨bin, hbin⟩ := Option.isSome_iff_exists.mp hsome
  exact ⟨bin, hbin, assess_eq_of_blacklist h1 h2 hbin⟩

/-- Witness for C3 at the spec scenario
`assess("rm -rf /tmp/build", false, ["rm"])`: no prior finding is collected
(see C1 — the bundled `-rf` never matches the rm patterns), so the result is
`RiskCritical` with the blacklist finding as the only reason, appended
last. -/
theorem blacklist_override_shortcircuit_witness :
    AssessCommandRisk "rm -rf /tmp/build" false ["rm"] =
      { level := RiskCritical,
        reasons := ["executes blacklisted binary: rm"] } := by
  obtain ⟨bin, hfind, heq⟩ := blacklist_override_shortcircuit
    "rm -rf /tmp/build" false ["rm"] (by decide) (by decide)
    ⟨"rm", by simp, by decide⟩
  have hconc : (["rm"].find? (fun b => (blacklistRegex b).matchString
      (normalizeCommand (goTrimSpace "rm -rf /tmp/build")))) = some "rm" := by
    decide
  rw [hconc] at hfind
  have hbin : bin = "rm" := (Option.some.inj hfind).symm
  subst hbin
  rw [heq]
  decide

/-- C1 (code bug): the first rm pattern
`\brm\s+.*-[a-z]*r[a-z]*.*-[a-z]*f` demands two separate `-` flag groups, so
a single short-flag bundle such as `-rf` in `sudo rm -rf /etc` matches no rm
pattern at all; the destructive-file-operations detector emits nothing, and
`assess("sudo rm -rf /etc", false, [])` yields only the
privilege-escalation finding with level `RiskMedium` — not the
destructive-rm finding and level ≥ High the claim (and the source comment
"rm -rf or -fr") promises. -/
theorem rm_bundle_scenario_eval :
    (rmRegexes.any (fun r => r.matchString
      (normalizeCommand (goTrimSpace "sudo rm -rf /etc")))) = false ∧
    detectDestructiveFileOps (goTrimSpace "sudo rm -rf /etc") = [] ∧
    AssessCommandRisk "sudo rm -rf /etc" false [] =
      { level := RiskMedium, reasons := ["sudo privilege escalation"] } := by
  refine ⟨by decide, by decide, by decide⟩
